import Mathlib

/-!
# ContentHub — Secure Ingress & Credential Store: shallow embedding

Verification development for the ContentHub security subsystem
(`backend/crypto_utils.py`, `backend/file_security.py`,
`backend/url_security.py`, and the config handlers of `backend/main.py`,
as recorded in the repository's security-fix document together with the
settings page `frontend/src/pages/Settings.jsx`).

Python byte strings (`bytes` / UTF-8 encoded `str`) are modelled as
`List Nat`, each element one byte; filenames (`str` handled per
character) are modelled as `List Char`.
-/

deriving instance DecidableEq for Except

namespace ContentHub

/-- Test whether `pat` occurs as a contiguous
subsequence of `s` — the model of Python's substring operator
`pat in s`. -/
def containsSeq {α : Type} [DecidableEq α] (pat s : List α) : Bool :=
  s.tails.any (fun t => pat.isPrefixOf t)

/-! ## Cryptography (`backend/crypto_utils.py`, `CryptoManager`)

The `Fernet` primitive comes from the external `cryptography` library.
Modelled from the spec: symmetric authenticated encryption over byte
strings — the ciphertext is a version marker, the key-shifted payload,
and an authentication tag; decryption checks the marker and the tag and
fails (`none`) on anything that is not a well-formed ciphertext under
the key. -/

/-- Authentication tag of a payload under a key (model of Fernet's HMAC). -/
def fernetMac (key : Nat) (payload : List Nat) : Nat :=
  payload.foldl (fun a b => (a * 31 + b + 1) % 251) (key % 251)

/-- Model of `Fernet.encrypt`: marker byte `128`, payload bytes shifted
by the key modulo 256, then the authentication tag. -/
def fernetEncrypt (key : Nat) (pt : List Nat) : List Nat :=
  128 :: (pt.map (fun b => (b + key) % 256) ++ [fernetMac key pt])

/-- Model of `Fernet.decrypt`: strips the marker, unshifts the payload,
and checks the authentication tag; returns `none` on any token that is
not a valid ciphertext under `key`. -/
def fernetDecrypt (key : Nat) (ct : List Nat) : Option (List Nat) :=
  match ct with
  | 128 :: rest =>
    match rest.getLast? with
    | none => none
    | some mac =>
      let pt := rest.dropLast.map (fun b => (b + (256 - key % 256)) % 256)
      if fernetMac key pt = mac then some pt else none
  | _ => none

/-- Method `CryptoManager.encrypt`: delegates to the Fernet cipher. -/
def cryptoEncrypt (key : Nat) (pt : List Nat) : List Nat :=
  fernetEncrypt key pt

/-- Method `CryptoManager.decrypt`: attempts Fernet decryption and, on any
failure, returns the stored value unchanged (the `except: return
ciphertext` backward-compatibility branch). -/
def cryptoDecrypt (key : Nat) (ct : List Nat) : List Nat :=
  match fernetDecrypt key ct with
  | some pt => pt
  | none => ct

/-- Shifting a byte by the key and unshifting it is the identity. -/
theorem byte_shift_roundtrip (key b : Nat) (hb : b < 256) :
    ((b + key) % 256 + (256 - key % 256)) % 256 = b := by
  omega

/-- Fernet decryption inverts Fernet encryption on byte strings. -/
theorem fernetDecrypt_fernetEncrypt (key : Nat) (pt : List Nat)
    (hb : ∀ b ∈ pt, b < 256) :
    fernetDecrypt key (fernetEncrypt key pt) = some pt := by
  have hmap : (pt.map (fun b => (b + key) % 256)).map
      (fun b => (b + (256 - key % 256)) % 256) = pt := by
    rw [List.map_map]
    have : ∀ b ∈ pt,
        ((b + key) % 256 + (256 - key % 256)) % 256 = b := by
      intro b hbmem
      exact byte_shift_roundtrip key b (hb b hbmem)
    calc pt.map ((fun b => (b + (256 - key % 256)) % 256) ∘
            (fun b => (b + key) % 256))
        = pt.map id := List.map_congr_left (by
          intro b hbmem
          simp [Function.comp, this b hbmem])
      _ = pt := List.map_id pt
  simp only [fernetDecrypt, fernetEncrypt, List.getLast?_concat,
    List.dropLast_concat, hmap]
  simp

/-! ## Encrypted configuration store (`backend/main.py` config handlers) -/

/-- The fixed set of sensitive configuration keys
(`API_KEY_FIELDS` in `backend/main.py`). -/
def API_KEY_FIELDS : List String :=
  ["openai_api_key", "deepseek_api_key", "claude_api_key",
   "anthropic_api_key", "gemini_api_key"]

/-- The PUT `/api/configs` write path: `if key in API_KEY_FIELDS and
value: store_value = encrypt_api_key(value)`; every other case stores
the value as-is (the handler's fall-through). Returns the value that
ends up stored in the `configs` row. -/
def set_config (ekey : Nat) (key : String) (value : List Nat) : List Nat :=
  if API_KEY_FIELDS.contains key && !value.isEmpty then
    cryptoEncrypt ekey value
  else
    value

/-- UTF-8 bytes of the redaction placeholder `"********...已设置"`
returned by GET `/api/configs` for a set sensitive key. -/
def REDACTION_PLACEHOLDER : List Nat :=
  [42, 42, 42, 42, 42, 42, 42, 42, 46, 46, 46,
   229, 183, 178, 232, 174, 190, 231, 189, 174]

/-- The GET `/api/configs` read path for the UI: `if config.key in
API_KEY_FIELDS and config.value: config_dict[config.key] =
"********...已设置"`; otherwise the stored value is passed through. -/
def get_config_for_display (key : String) (stored : List Nat) : List Nat :=
  if API_KEY_FIELDS.contains key && !stored.isEmpty then
    REDACTION_PLACEHOLDER
  else
    stored

/-- The trusted read path (`backend/ai_service.py`:
`api_key = decrypt_api_key(config.value)`). -/
def get_config_value (ekey : Nat) (stored : List Nat) : List Nat :=
  cryptoDecrypt ekey stored

/-- An encrypted token is never equal to its plaintext (it is two bytes
longer), so storing-encrypted and storing-unchanged are distinguishable. -/
theorem fernetEncrypt_ne (ekey : Nat) (v : List Nat) :
    fernetEncrypt ekey v ≠ v := by
  intro h
  have hlen := congrArg List.length h
  simp [fernetEncrypt] at hlen
  omega

/-! ## File upload validator (`backend/file_security.py`)

The source raises `FileValidationError` with a distinct message at each
rejection site; the spec names the sites `FilenameInvalidError`,
`ExtensionNotAllowedError`, `FileTooLargeError`, `ContentSignatureError`.
We model the error as an enumeration of the raise sites. -/

inductive FileValidationError : Type where
  | filenameInvalid
  | extensionNotAllowed
  | fileTooLarge
  | contentSignature
deriving DecidableEq

/-- The dangerous character sequences of `validate_filename`:
`['..', '/', '\\', '\x00']`. -/
def dangerousSeqs : List (List Char) :=
  [['.', '.'], ['/'], ['\\'], [Char.ofNat 0]]

/-- POSIX `os.path.basename`: the characters after the last `'/'`. -/
def basename (f : List Char) : List Char :=
  ((f.reverse.takeWhile (fun c => c ≠ '/')).reverse)

/-- Function `validate_filename`: reject any filename containing a dangerous
sequence, then strip to the base name. -/
def validate_filename (f : List Char) :
    Except FileValidationError (List Char) :=
  if dangerousSeqs.any (fun d => containsSeq d f) then
    .error .filenameInvalid
  else
    .ok (basename f)

/-- Extension of a filename including the dot (`os.path.splitext`-style:
everything from the last `'.'`), `[]` when there is no dot. -/
def fileExt (f : List Char) : List Char :=
  if f.contains '.' then
    '.' :: (f.reverse.takeWhile (fun c => c ≠ '.')).reverse
  else
    []

/-- Modelled from the spec: `validate_file_extension` (body not in the
repository snapshot) — case-insensitively check the extension against
the allowed set, rejecting otherwise. -/
def validate_file_extension (f : List Char) (allowed : List (List Char)) :
    Except FileValidationError Unit :=
  if allowed.contains ((fileExt f).map Char.toLower) then
    .ok ()
  else
    .error .extensionNotAllowed

/-- Modelled from the spec: `validate_file_size` (body not in the
repository snapshot) — reject content whose byte length exceeds
`max_size_mb * 1,048,576`; returns the computed size. -/
def validate_file_size (content : List Nat) (maxSizeMB : Nat) :
    Except FileValidationError Nat :=
  if content.length ≤ maxSizeMB * 1048576 then
    .ok content.length
  else
    .error .fileTooLarge

/-- The bytes `%PDF-` (the PDF magic signature). -/
def pdfMagic : List Nat := [37, 80, 68, 70, 45]

/-- The bytes `%%EOF` (the PDF end-of-file marker). -/
def pdfEofMarker : List Nat := [37, 37, 69, 79, 70]

/-- ASCII whitespace bytes stripped by Python's `bytes.rstrip()`. -/
def asciiWhitespace (b : Nat) : Bool :=
  b = 9 || b = 10 || b = 11 || b = 12 || b = 13 || b = 32

/-- Python `content.rstrip()` on bytes. -/
def rstripBytes (c : List Nat) : List Nat :=
  (c.reverse.dropWhile asciiWhitespace).reverse

/-- Whether `content.rstrip().endswith(b'%%EOF')`. -/
def hasPdfEof (c : List Nat) : Bool :=
  pdfEofMarker.isSuffixOf (rstripBytes c)

/-- Function `validate_pdf_structure`: hard-fails iff the `%PDF-` magic is
absent; a missing `%%EOF` trailer only sets the soft-warning flag
(the source logs `logger.warning`, it does not raise). Returns the
soft-warning flag. -/
def validate_pdf_structure (c : List Nat) :
    Except FileValidationError Bool :=
  if pdfMagic.isPrefixOf c then
    .ok (!hasPdfEof c)
  else
    .error .contentSignature

/-- Function `validate_upload_file`: filename check, then extension, then size,
then content signature; returns the sanitized filename and size. -/
def validate_upload_file (f : List Char) (content : List Nat)
    (maxSizeMB : Nat) (allowed : List (List Char)) :
    Except FileValidationError (List Char × Nat) := do
  let safe ← validate_filename f
  let _ ← validate_file_extension safe allowed
  let size ← validate_file_size content maxSizeMB
  let _ ← validate_pdf_structure content
  pure (safe, size)

/-! ## URL security validator (`backend/url_security.py`)

The snapshot records the validation pipeline of `validate_image_url`
(format check, domain allow-list, DNS resolution, private-IP re-check)
and the `PRIVATE_IP_RANGES` table. The URL-parsing collaborator
(`urllib.parse`) is abstracted: a URL arrives pre-parsed into scheme,
userinfo flag and host. IPv4 addresses are 32-bit naturals. -/

inductive URLSecurityError : Type where
  | formatError
  | domainNotAllowed
  | privateAddress
  | dnsResolution
deriving DecidableEq

/-- Build the 32-bit value of the dotted quad `a.b.c.d`. -/
def mkIP (a b c d : Nat) : Nat :=
  ((a * 256 + b) * 256 + c) * 256 + d

/-- The reserved/private IPv4 networks, each as (base address, prefix
length). The snapshot lists the first four explicitly and abridges the
rest; the fifth, `169.254.0.0/16`, is modelled from the spec's
`PrivateAddressRanges` table. -/
def PRIVATE_IP_RANGES : List (Nat × Nat) :=
  [(mkIP 10 0 0 0, 8),
   (mkIP 172 16 0 0, 12),
   (mkIP 192 168 0 0, 16),
   (mkIP 127 0 0 0, 8),
   (mkIP 169 254 0 0, 16)]

/-- Whether `ip` lies in the network `base/plen`. -/
def inNetwork (ip base plen : Nat) : Bool :=
  ip / 2 ^ (32 - plen) = base / 2 ^ (32 - plen)

/-- Function `is_private_ip`: membership in any reserved range. -/
def is_private_ip (ip : Nat) : Bool :=
  PRIVATE_IP_RANGES.any (fun r => inNetwork ip r.1 r.2)

/-- A URL host: either a literal IP address or a DNS name. -/
inductive URLHost : Type where
  | ipLiteral (addr : Nat)
  | named (host : String)
deriving DecidableEq

/-- A parsed candidate URL: scheme, whether userinfo (`user:pass@`)
is embedded, and the host. -/
structure ImageURL : Type where
  scheme : String
  hasUserinfo : Bool
  host : URLHost
deriving DecidableEq

/-- Function `validate_url_format`: only `http`/`https`, no embedded userinfo
(spec §4.1 steps 1–3; the snapshot's `validate_url_format`). -/
def urlFormatOk (u : ImageURL) : Bool :=
  (u.scheme == "http" || u.scheme == "https") && !u.hasUserinfo

/-- Function `is_domain_allowed`: the hostname's suffix is checked against the
allow-list (`any(netloc.endswith(d) for d in ALLOWED_DOMAINS)`). -/
def is_domain_allowed (host : String) (allowed : List String) : Bool :=
  allowed.any (fun d => d.toList.isSuffixOf host.toList)

/-- Function `validate_image_url`. Steps, following the snapshot and spec §4.1:
format check; literal IPs are validated directly against
`PRIVATE_IP_RANGES` (modelled from the spec: the literal-IP branch and
the every-resolved-address loop are abridged in the snapshot); named
hosts go through the allow-list, then DNS resolution (`resolve`,
`none` = failure/timeout), and every resolved address is re-checked
against the private ranges. Success returns the resolved addresses. -/
def validate_image_url (allowed : List String)
    (resolve : String → Option (List Nat)) (u : ImageURL) :
    Except URLSecurityError (List Nat) :=
  if !urlFormatOk u then
    .error .formatError
  else
    match u.host with
    | .ipLiteral a =>
      if is_private_ip a then .error .privateAddress else .ok [a]
    | .named h =>
      if !is_domain_allowed h allowed then
        .error .domainNotAllowed
      else
        match resolve h with
        | none => .error .dnsResolution
        | some ips =>
          if ips.any is_private_ip then .error .privateAddress
          else .ok ips

/-! ## Shared helper lemmas -/

/-- Bind on a successful `Except` computation runs the continuation. -/
theorem except_bind_ok {ε α β : Type} (a : α) (k : α → Except ε β) :
    (Except.ok a >>= k) = k a := rfl

/-- Bind on a failed `Except` computation short-circuits. -/
theorem except_bind_error {ε α β : Type} (e : ε) (k : α → Except ε β) :
    (Except.error e >>= k) = Except.error e := rfl

/-- Membership gives occurrence of the one-element sequence. -/
theorem containsSeq_of_mem {α : Type} [DecidableEq α] {c : α}
    {l : List α} (h : c ∈ l) : containsSeq [c] l = true := by
  induction l with
  | nil => cases h
  | cons x xs ih =>
    simp only [containsSeq, List.tails_cons, List.any_cons,
      Bool.or_eq_true]
    rcases List.mem_cons.mp h with rfl | hm
    · left
      simp [List.isPrefixOf]
    · right
      exact ih hm

/-- On a filename without `'/'`, the base-name strip is the identity. -/
theorem basename_eq_self {f : List Char} (h : '/' ∉ f) :
    basename f = f := by
  unfold basename
  have : f.reverse.takeWhile (fun c => decide (c ≠ '/')) = f.reverse := by
    rw [List.takeWhile_eq_self_iff]
    intro x hx
    have : x ∈ f := List.mem_reverse.mp hx
    simp only [decide_eq_true_eq]
    intro hxe
    exact h (hxe ▸ this)
  rw [this, List.reverse_reverse]

/-! ## Claim theorems -/

/-- C5: for every non-empty byte string `s`, decrypting the encryption
of `s` under the same `CryptoManager` key returns `s`:
`decrypt(encrypt(s)) == s`. -/
theorem decrypt_encrypt_roundtrip (key : Nat) (s : List Nat)
    (_hne : s ≠ []) (hb : ∀ b ∈ s, b < 256) :
    cryptoDecrypt key (cryptoEncrypt key s) = s := by
  simp [cryptoDecrypt, cryptoEncrypt,
    fernetDecrypt_fernetEncrypt key s hb]

/-- Witness for C5: the round trip on the bytes of `"sk-a"` and key 7. -/
theorem decrypt_encrypt_roundtrip_witness :
    ([115, 107, 45, 97] : List Nat) ≠ []
    ∧ (∀ b ∈ ([115, 107, 45, 97] : List Nat), b < 256)
    ∧ cryptoDecrypt 7 (cryptoEncrypt 7 [115, 107, 45, 97])
        = [115, 107, 45, 97] :=
  ⟨by decide, by decide,
    decrypt_encrypt_roundtrip 7 [115, 107, 45, 97] (by decide) (by decide)⟩

/-- C4: for every stored string that is not a valid ciphertext under
the store's key (e.g. legacy plaintext), `get_config_value`'s
decryption layer returns it unchanged and never raises — decryption
failure is never surfaced as an error. -/
theorem decrypt_fallback_legacy_plaintext (key : Nat) (v : List Nat)
    (h : fernetDecrypt key v = none) :
    cryptoDecrypt key v = v := by
  simp [cryptoDecrypt, h]

/-- Witness for C4: the legacy plaintext bytes of `"sk-a"` are not a
valid ciphertext under key 7 and come back unchanged. -/
theorem decrypt_fallback_legacy_plaintext_witness :
    fernetDecrypt 7 [115, 107, 45, 97] = none
    ∧ cryptoDecrypt 7 [115, 107, 45, 97] = [115, 107, 45, 97] :=
  ⟨by decide, decrypt_fallback_legacy_plaintext 7 [115, 107, 45, 97] (by decide)⟩

/-- C1: a URL whose hostname passes the allow-list check but whose DNS
resolution yields any address inside a private range is rejected with
`PrivateAddressError` (DNS-rebinding defense). -/
theorem allowlisted_host_private_resolution_rejected
    (allowed : List String) (resolve : String → Option (List Nat))
    (u : ImageURL) (h : String) (ips : List Nat) (a : Nat)
    (hfmt : urlFormatOk u = true)
    (hhost : u.host = URLHost.named h)
    (hallow : is_domain_allowed h allowed = true)
    (hres : resolve h = some ips)
    (hmem : a ∈ ips)
    (hpriv : is_private_ip a = true) :
    validate_image_url allowed resolve u
      = .error .privateAddress := by
  have hany : ips.any is_private_ip = true :=
    List.any_eq_true.mpr ⟨a, hmem, hpriv⟩
  simp [validate_image_url, hfmt, hhost, hallow, hres, hany]

/-- Witness for C1: an allow-listed Twitter CDN hostname that resolves
to `10.0.0.5` is rejected as a private address. -/
theorem allowlisted_host_private_resolution_rejected_witness :
    is_domain_allowed "img.pbs.twimg.com" ["pbs.twimg.com"] = true
    ∧ is_private_ip (mkIP 10 0 0 5) = true
    ∧ validate_image_url ["pbs.twimg.com"]
        (fun _ => some [mkIP 10 0 0 5])
        ⟨"http", false, URLHost.named "img.pbs.twimg.com"⟩
        = .error .privateAddress :=
  ⟨by decide, by decide,
    allowlisted_host_private_resolution_rejected ["pbs.twimg.com"]
      (fun _ => some [mkIP 10 0 0 5])
      ⟨"http", false, URLHost.named "img.pbs.twimg.com"⟩
      "img.pbs.twimg.com" [mkIP 10 0 0 5] (mkIP 10 0 0 5)
      (by decide) rfl (by decide) rfl (by decide) (by decide)⟩

/-- C2: a URL whose hostname is a literal IP inside a reserved range is
rejected with `PrivateAddressError` specifically, for every allow-list
and every resolver — an IP literal cannot be whitelisted around the
check. -/
theorem private_ip_literal_rejected
    (allowed : List String) (resolve : String → Option (List Nat))
    (u : ImageURL) (a : Nat)
    (hfmt : urlFormatOk u = true)
    (hhost : u.host = URLHost.ipLiteral a)
    (hpriv : is_private_ip a = true) :
    validate_image_url allowed resolve u
      = .error .privateAddress := by
  simp [validate_image_url, hfmt, hhost, hpriv]

/-- Witness for C2: `http://169.254.169.254/...` (the cloud metadata
endpoint) is rejected even with an allow-list that matches everything. -/
theorem private_ip_literal_rejected_witness :
    is_private_ip (mkIP 169 254 169 254) = true
    ∧ validate_image_url [""] (fun _ => some [mkIP 8 8 8 8])
        ⟨"http", false, URLHost.ipLiteral (mkIP 169 254 169 254)⟩
        = .error .privateAddress :=
  ⟨by decide,
    private_ip_literal_rejected [""] (fun _ => some [mkIP 8 8 8 8])
      ⟨"http", false, URLHost.ipLiteral (mkIP 169 254 169 254)⟩
      (mkIP 169 254 169 254) (by decide) rfl (by decide)⟩

/-- C6: any filename containing `..`, `/`, `\` or a NUL byte is
rejected with `FilenameInvalidError`, and this happens first: the
result is the same for every content, size ceiling and extension set,
so no extension, size or content-signature check takes part. -/
theorem dangerous_filename_rejected_first (f : List Char)
    (h : containsSeq ['.', '.'] f = true ∨ containsSeq ['/'] f = true ∨
         containsSeq ['\\'] f = true ∨ containsSeq [Char.ofNat 0] f = true) :
    ∀ (content : List Nat) (maxSizeMB : Nat) (allowed : List (List Char)),
      validate_upload_file f content maxSizeMB allowed
        = .error .filenameInvalid := by
  intro content maxSizeMB allowed
  have hany : dangerousSeqs.any (fun d => containsSeq d f) = true := by
    rcases h with h | h | h | h <;> simp [dangerousSeqs, h]
  have hvf : validate_filename f = .error .filenameInvalid := by
    simp [validate_filename, hany]
  unfold validate_upload_file
  rw [hvf]
  rfl

/-- Witness for C6: `../etc/passwd` is rejected as an invalid filename
for arbitrary content, limit and extension set. -/
theorem dangerous_filename_rejected_first_witness :
    containsSeq ['.', '.'] ("../etc/passwd".toList) = true
    ∧ validate_upload_file ("../etc/passwd".toList) [37, 80, 68, 70, 45]
        50 [".pdf".toList] = .error .filenameInvalid :=
  ⟨by decide,
    dangerous_filename_rejected_first ("../etc/passwd".toList)
      (Or.inl (by decide)) [37, 80, 68, 70, 45] 50 [".pdf".toList]⟩

/-- C7: when the filename, extension and size checks pass, content not
beginning with `%PDF-` is rejected with `ContentSignatureError` (even
for a `.pdf` name), while content with the magic but without the
`%%EOF` trailer is not rejected on that account: the structure check
returns only the soft-warning flag and the upload succeeds. -/
theorem pdf_signature_hard_eof_soft (f g : List Char) (content : List Nat)
    (maxSizeMB : Nat) (allowed : List (List Char))
    (hvf : validate_filename f = .ok g)
    (hext : validate_file_extension g allowed = .ok ())
    (hsize : content.length ≤ maxSizeMB * 1048576) :
    (pdfMagic.isPrefixOf content = false →
      validate_upload_file f content maxSizeMB allowed
        = .error .contentSignature)
    ∧ (pdfMagic.isPrefixOf content = true → hasPdfEof content = false →
      validate_pdf_structure content = .ok true
      ∧ validate_upload_file f content maxSizeMB allowed
          = .ok (g, content.length)) := by
  have hsz : validate_file_size content maxSizeMB = .ok content.length := by
    simp [validate_file_size, hsize]
  constructor
  · intro hmagic
    have hpdf : validate_pdf_structure content = .error .contentSignature := by
      simp [validate_pdf_structure, hmagic]
    unfold validate_upload_file
    rw [hvf, except_bind_ok, hext, except_bind_ok, hsz, except_bind_ok,
      hpdf]
    rfl
  · intro hmagic heof
    have hpdf : validate_pdf_structure content = .ok true := by
      simp [validate_pdf_structure, hmagic, heof]
    refine ⟨hpdf, ?_⟩
    unfold validate_upload_file
    rw [hvf, except_bind_ok, hext, except_bind_ok, hsz, except_bind_ok,
      hpdf]
    rfl

/-- Witness for C7: `malware.pdf` with an `MZ` executable header is
rejected by the signature check, and `report.pdf` whose content starts
with `%PDF-` but lacks `%%EOF` is accepted with the warning flag set. -/
theorem pdf_signature_hard_eof_soft_witness :
    validate_upload_file ("malware.pdf".toList) [77, 90, 144, 0]
        50 [".pdf".toList] = .error .contentSignature
    ∧ (validate_pdf_structure [37, 80, 68, 70, 45, 49, 10] = .ok true
      ∧ validate_upload_file ("report.pdf".toList)
          [37, 80, 68, 70, 45, 49, 10] 50 [".pdf".toList]
          = .ok ("report.pdf".toList, 7)) :=
  ⟨(pdf_signature_hard_eof_soft ("malware.pdf".toList)
      ("malware.pdf".toList) [77, 90, 144, 0] 50 [".pdf".toList]
      (by decide) (by decide) (by decide)).1 (by decide),
    (pdf_signature_hard_eof_soft ("report.pdf".toList)
      ("report.pdf".toList) [37, 80, 68, 70, 45, 49, 10] 50
      [".pdf".toList] (by decide) (by decide) (by decide)).2
      (by decide) (by decide)⟩

/-- C9: on every accepted filename the base-name strip is the identity
— `validate_filename` returns the input itself — and sanitization is
idempotent. -/
theorem validate_filename_identity_idempotent (f g : List Char)
    (h : validate_filename f = .ok g) :
    g = f ∧ validate_filename g = .ok g := by
  unfold validate_filename at h
  by_cases hc : dangerousSeqs.any (fun d => containsSeq d f) = true
  · rw [if_pos hc] at h
    cases h
  · rw [if_neg hc] at h
    have hslash : '/' ∉ f := by
      intro hmem
      exact hc (by simp [dangerousSeqs, containsSeq_of_mem hmem])
    have hbase : basename f = f := basename_eq_self hslash
    have hg : g = f := by
      have := Except.ok.inj h
      rw [← this, hbase]
    subst hg
    refine ⟨rfl, ?_⟩
    unfold validate_filename
    rw [if_neg hc, hbase]

/-- Witness for C9: `report.pdf` is returned unchanged and revalidates
to itself. -/
theorem validate_filename_identity_idempotent_witness :
    validate_filename ("report.pdf".toList) = .ok ("report.pdf".toList)
    ∧ ("report.pdf".toList = "report.pdf".toList
      ∧ validate_filename ("report.pdf".toList)
          = .ok ("report.pdf".toList)) :=
  ⟨by decide,
    validate_filename_identity_idempotent ("report.pdf".toList)
      ("report.pdf".toList) (by decide)⟩

/-- Display of a sensitive key with a set value is the fixed
placeholder, whatever the stored value is. -/
theorem display_sensitive_eq_placeholder (key : String)
    (stored : List Nat) (hkey : API_KEY_FIELDS.contains key = true)
    (hne : stored ≠ []) :
    get_config_for_display key stored = REDACTION_PLACEHOLDER := by
  have hmem : key ∈ API_KEY_FIELDS := by simpa using hkey
  have : stored.isEmpty = false := by
    simpa using hne
  simp [get_config_for_display, hmem, this]

/-- C3 counterexample: for the sensitive key `openai_api_key` and the
(adversarial) secret `****abcd`, the displayed placeholder does contain
a length-4 substring of the plaintext, namely `****` — so the claim
that the display contains no length-≥4 substring of the secret fails
as stated. -/
theorem redaction_substring_counterexample :
    get_config_for_display "openai_api_key"
        (set_config 7 "openai_api_key" [42, 42, 42, 42, 97, 98, 99, 100])
      = REDACTION_PLACEHOLDER
    ∧ containsSeq [42, 42, 42, 42] [42, 42, 42, 42, 97, 98, 99, 100] = true
    ∧ containsSeq [42, 42, 42, 42]
        (get_config_for_display "openai_api_key"
          (set_config 7 "openai_api_key"
            [42, 42, 42, 42, 97, 98, 99, 100])) = true
    ∧ 4 ≤ ([42, 42, 42, 42] : List Nat).length := by
  refine ⟨by decide, by decide, by decide, by decide⟩

/-- C3 (amended): for every sensitive key with a non-empty stored
value, the display is the fixed redaction placeholder, identical no
matter what the stored secret is, and the only length-≥4 sequences it
can share with the plaintext are those already occurring in the fixed
placeholder constant itself. -/
theorem redaction_fixed_placeholder (key : String) (stored : List Nat)
    (hkey : API_KEY_FIELDS.contains key = true) (hne : stored ≠ []) :
    get_config_for_display key stored = REDACTION_PLACEHOLDER
    ∧ (∀ stored' : List Nat, stored' ≠ [] →
        get_config_for_display key stored'
          = get_config_for_display key stored)
    ∧ (∀ sub : List Nat, 4 ≤ sub.length →
        containsSeq sub REDACTION_PLACEHOLDER = false →
        containsSeq sub (get_config_for_display key stored) = false) := by
  have hd := display_sensitive_eq_placeholder key stored hkey hne
  refine ⟨hd, ?_, ?_⟩
  · intro stored' hne'
    rw [display_sensitive_eq_placeholder key stored' hkey hne', hd]
  · intro sub _ hnotin
    rw [hd]
    exact hnotin

/-- Witness for the amended C3: concrete sensitive key and stored
value, with the display equal to the placeholder. -/
theorem redaction_fixed_placeholder_witness :
    API_KEY_FIELDS.contains "claude_api_key" = true
    ∧ ([1] : List Nat) ≠ []
    ∧ get_config_for_display "claude_api_key" [1]
        = REDACTION_PLACEHOLDER :=
  ⟨by decide, by decide,
    (redaction_fixed_placeholder "claude_api_key" [1]
      (by decide) (by decide)).1⟩

/-- C8: the stored value is the encryption of the written value exactly
when the key is sensitive and the value is non-empty; in every other
case the value is stored unchanged. -/
theorem set_config_encrypts_iff_sensitive (ekey : Nat) (key : String)
    (v : List Nat) :
    (set_config ekey key v = fernetEncrypt ekey v
      ↔ (API_KEY_FIELDS.contains key = true ∧ v ≠ []))
    ∧ (¬ (API_KEY_FIELDS.contains key = true ∧ v ≠ []) →
        set_config ekey key v = v) := by
  by_cases hc : API_KEY_FIELDS.contains key = true ∧ v ≠ []
  · obtain ⟨h1, h2⟩ := hc
    have h1' : key ∈ API_KEY_FIELDS := by simpa using h1
    have h2' : v.isEmpty = false := by simpa using h2
    refine ⟨⟨fun _ => ⟨h1, h2⟩, fun _ => ?_⟩, fun hn => absurd ⟨h1, h2⟩ hn⟩
    simp [set_config, cryptoEncrypt, h1', h2']
  · have hb : (API_KEY_FIELDS.contains key && !v.isEmpty) = false := by
      cases h1 : API_KEY_FIELDS.contains key <;>
        cases h2 : v.isEmpty <;>
        simp_all
    have hstore : set_config ekey key v = v := by
      unfold set_config
      rw [hb]
      rfl
    refine ⟨⟨fun he => ?_, fun hcond => absurd hcond hc⟩, fun _ => hstore⟩
    exact absurd (hstore.symm.trans he).symm (fernetEncrypt_ne ekey v)

/-- Witness for C8: a sensitive key with a non-empty value is stored
encrypted; a non-sensitive key is stored unchanged. -/
theorem set_config_encrypts_iff_sensitive_witness :
    set_config 7 "openai_api_key" [1, 2] = fernetEncrypt 7 [1, 2]
    ∧ set_config 7 "default_ai_model" [1, 2] = [1, 2] :=
  ⟨(set_config_encrypts_iff_sensitive 7 "openai_api_key" [1, 2]).1.mpr
      (by decide),
    (set_config_encrypts_iff_sensitive 7 "default_ai_model" [1, 2]).2
      (by decide)⟩

/-- C10: the write path gives no special treatment to the redaction
placeholder: saving back the displayed value of a sensitive key
encrypts and stores the placeholder itself, so the previously stored
real secret (recoverable before the save) is irreversibly replaced —
the trusted read now yields the placeholder, not the secret. This is
exactly the `Settings.jsx` load-then-save round trip. -/
theorem placeholder_resave_overwrites_secret (ekey : Nat) (key : String)
    (secret : List Nat)
    (hkey : API_KEY_FIELDS.contains key = true)
    (hne : secret ≠ [])
    (hb : ∀ b ∈ secret, b < 256)
    (hsp : secret ≠ REDACTION_PLACEHOLDER) :
    get_config_value ekey (set_config ekey key secret) = secret
    ∧ get_config_for_display key (set_config ekey key secret)
        = REDACTION_PLACEHOLDER
    ∧ set_config ekey key
        (get_config_for_display key (set_config ekey key secret))
        = fernetEncrypt ekey REDACTION_PLACEHOLDER
    ∧ get_config_value ekey
        (set_config ekey key
          (get_config_for_display key (set_config ekey key secret)))
        = REDACTION_PLACEHOLDER
    ∧ get_config_value ekey
        (set_config ekey key
          (get_config_for_display key (set_config ekey key secret)))
        ≠ secret := by
  have hmem : key ∈ API_KEY_FIELDS := by simpa using hkey
  have hne' : secret.isEmpty = false := by simpa using hne
  have hstored : set_config ekey key secret = fernetEncrypt ekey secret := by
    simp [set_config, cryptoEncrypt, hmem, hne']
  have hstored_ne : set_config ekey key secret ≠ [] := by
    rw [hstored]
    simp [fernetEncrypt]
  have hvalue : get_config_value ekey (set_config ekey key secret)
      = secret := by
    rw [hstored]
    simp only [get_config_value, cryptoDecrypt,
      fernetDecrypt_fernetEncrypt ekey secret hb]
  have hdisp : get_config_for_display key (set_config ekey key secret)
      = REDACTION_PLACEHOLDER :=
    display_sensitive_eq_placeholder key _ hkey hstored_ne
  have hph_ne : REDACTION_PLACEHOLDER ≠ ([] : List Nat) := by decide
  have hph_ne' : REDACTION_PLACEHOLDER.isEmpty = false := by decide
  have hph_b : ∀ b ∈ REDACTION_PLACEHOLDER, b < 256 := by decide
  have hresave : set_config ekey key
      (get_config_for_display key (set_config ekey key secret))
      = fernetEncrypt ekey REDACTION_PLACEHOLDER := by
    rw [hdisp]
    simp [set_config, cryptoEncrypt, hmem, hph_ne']
  have hvalue' : get_config_value ekey
      (set_config ekey key
        (get_config_for_display key (set_config ekey key secret)))
      = REDACTION_PLACEHOLDER := by
    rw [hresave]
    simp only [get_config_value, cryptoDecrypt,
      fernetDecrypt_fernetEncrypt ekey REDACTION_PLACEHOLDER hph_b]
  refine ⟨hvalue, hdisp, hresave, hvalue', ?_⟩
  rw [hvalue']
  exact fun hcontra => hsp hcontra.symm

/-- Witness for C10: saving the displayed placeholder over the stored
secret `sk-ab` under the key `openai_api_key` replaces the secret. -/
theorem placeholder_resave_overwrites_secret_witness :
    get_config_value 7 (set_config 7 "openai_api_key"
      [115, 107, 45, 97, 98]) = [115, 107, 45, 97, 98]
    ∧ get_config_for_display "openai_api_key"
        (set_config 7 "openai_api_key" [115, 107, 45, 97, 98])
        = REDACTION_PLACEHOLDER
    ∧ set_config 7 "openai_api_key"
        (get_config_for_display "openai_api_key"
          (set_config 7 "openai_api_key" [115, 107, 45, 97, 98]))
        = fernetEncrypt 7 REDACTION_PLACEHOLDER
    ∧ get_config_value 7
        (set_config 7 "openai_api_key"
          (get_config_for_display "openai_api_key"
            (set_config 7 "openai_api_key" [115, 107, 45, 97, 98])))
        = REDACTION_PLACEHOLDER
    ∧ get_config_value 7
        (set_config 7 "openai_api_key"
          (get_config_for_display "openai_api_key"
            (set_config 7 "openai_api_key" [115, 107, 45, 97, 98])))
        ≠ [115, 107, 45, 97, 98] :=
  placeholder_resave_overwrites_secret 7 "openai_api_key"
    [115, 107, 45, 97, 98] (by decide) (by decide) (by decide) (by decide)

end ContentHub
